import Mathlib

/-!
Verification of the URL-shortcut service (`src/main.py`).

The persistent store is the SQLite table `urls (code TEXT PRIMARY KEY, url TEXT NOT NULL)`;
we embed it as a list of entries in insertion (rowid) order.  Each HTTP handler of
`main.py` becomes a pure function from the store (and its inputs) to a result value
mirroring the HTTP response, paired with the store after the call.
-/

/-- A row of the `urls` table: `code TEXT PRIMARY KEY, url TEXT NOT NULL`. -/
structure Entry where
  code : String
  url : String
deriving DecidableEq, Repr

/-- The `urls` table in rowid (insertion) order. -/
abbrev Store := List Entry

/-- Whether a row with primary key `c` exists (what SQLite's PRIMARY KEY
constraint consults on INSERT). -/
def hasCode (s : Store) (c : String) : Bool :=
  s.any (fun e => e.code == c)

/-- Outcome of `POST /shorten` (`create_short_url`, main.py:181-198): the JSON body
`{code, url, message}` on success, or the HTTP 400 raised on `sqlite3.IntegrityError`. -/
inductive CreateResult where
  | created (code url : String)
  | duplicateError
deriving DecidableEq, Repr

/-- HTTP status code of a create response: 200 on success, 400 for
`HTTPException(status_code=400, detail="Code already exists")`. -/
def CreateResult.status : CreateResult → Nat
  | .created _ _ => 200
  | .duplicateError => 400

/-- `create_short_url` (main.py:181-198): `INSERT INTO urls (code, url) VALUES (?, ?)`.
SQLite raises `IntegrityError` exactly when a row with the same primary key exists,
in which case the store is untouched; otherwise the row is appended. -/
def create_short_url (s : Store) (c u : String) : CreateResult × Store :=
  if hasCode s c then (.duplicateError, s)
  else (.created c u, s ++ [⟨c, u⟩])

/-- Outcome of `PUT /update/{code}` (`update_url`, main.py:201-217): 200 on success,
404 `"Code not found"` when `cursor.rowcount == 0`, or the HTTP 500 raised on
`KeyError` when the request body lacks the `"url"` field. -/
inductive UpdateResult where
  | updated
  | notFound
  | missingField
deriving DecidableEq, Repr

/-- HTTP status code of an update response. -/
def UpdateResult.status : UpdateResult → Nat
  | .updated => 200
  | .notFound => 404
  | .missingField => 500

/-- `update_url` (main.py:201-217).  The request body is an untyped dict; we model it
by its optional `"url"` field.  `url_data["url"]` is read before the database is
opened, so a missing field errors with status 500 and the store untouched.  Otherwise
`UPDATE urls SET url = ? WHERE code = ?` rewrites every matching row, and
`cursor.rowcount == 0` (no row matched) yields the 404. -/
def update_url (s : Store) (c : String) (payload : Option String) : UpdateResult × Store :=
  match payload with
  | none => (.missingField, s)
  | some u =>
      let s2 := s.map (fun e => if e.code == c then { code := c, url := u } else e)
      if s.countP (fun e => e.code == c) = 0 then (.notFound, s2)
      else (.updated, s2)

/-- Outcome of `DELETE /delete/{code}` (`delete_url`, main.py:220-229). -/
inductive DeleteResult where
  | deleted
  | notFoundDelete
deriving DecidableEq, Repr

/-- HTTP status code of a delete response. -/
def DeleteResult.status : DeleteResult → Nat
  | .deleted => 200
  | .notFoundDelete => 404

/-- `delete_url` (main.py:220-229): `DELETE FROM urls WHERE code = ?`, then
`cursor.rowcount == 0` yields the 404 `"Code not found"`. -/
def delete_url (s : Store) (c : String) : DeleteResult × Store :=
  let s2 := s.filter (fun e => !(e.code == c))
  if s.countP (fun e => e.code == c) = 0 then (.notFoundDelete, s2)
  else (.deleted, s2)

/-- Outcome of `GET /{code}` (`resolve`, main.py:232-244): always a 302 redirect,
either to the stored URL or to `/manage`. -/
inductive ResolveResult where
  | redirect (loc : String)
deriving DecidableEq, Repr

/-- HTTP status code of a resolve response: both branches use `status_code=302`. -/
def ResolveResult.status : ResolveResult → Nat
  | .redirect _ => 302

/-- `resolve` (main.py:232-244): `SELECT url FROM urls WHERE code = ?`, redirect to
the fetched URL if a row exists, else redirect to the management page. -/
def resolve (s : Store) (c : String) : ResolveResult :=
  match s.find? (fun e => e.code == c) with
  | some e => .redirect e.url
  | none => .redirect "/manage"

/-- The query of `manage_page` (main.py:57-60):
`SELECT code, url FROM urls ORDER BY code`.  SQLite's default BINARY collation
orders TEXT by UTF-8 bytes, which on valid UTF-8 coincides with codepoint
(hence Lean `String`) lexicographic order. -/
def listEntries (s : Store) : List Entry :=
  s.mergeSort (fun a b => a.code ≤ b.code)

/-- A GET response of the application, as far as the claims need it. -/
inductive GetResponse where
  | welcome
  | managePage (entries : List Entry)
  | redirect (loc : String)
deriving DecidableEq, Repr

/-- FastAPI dispatch of a GET request on a single path segment, in route
registration order (main.py): `/` → `read_root`, `/manage` → `manage_page`,
`/{code}` → `resolve`.  The fixed `/manage` route is registered before the
catch-all `/{code}` route, so it wins for the segment `"manage"`. -/
def dispatchGet (s : Store) (seg : String) : GetResponse :=
  if seg = "" then .welcome
  else if seg = "manage" then .managePage (listEntries s)
  else match resolve s seg with
       | .redirect loc => .redirect loc

/-- A mutating operation of the service. -/
inductive Op where
  | create (c u : String)
  | update (c : String) (payload : Option String)
  | delete (c : String)

/-- The store after one operation (ignoring the response). -/
def applyOp (s : Store) : Op → Store
  | .create c u => (create_short_url s c u).2
  | .update c p => (update_url s c p).2
  | .delete c => (delete_url s c).2

/-- The store reached from the empty table by a sequence of operations. -/
def runOps (ops : List Op) : Store := ops.foldl applyOp []

/-- The PRIMARY KEY invariant: no two live rows share a code. -/
def uniqueCodes (s : Store) : Prop := (s.map Entry.code).Nodup

/-- 4xx responses. -/
def isClientError (n : Nat) : Prop := 400 ≤ n ∧ n < 500

/-- 5xx responses. -/
def isServerError (n : Nat) : Prop := 500 ≤ n

/-! ### Basic lemmas about the store operations -/

theorem hasCode_iff {s : Store} {c : String} :
    hasCode s c = true ↔ ∃ e ∈ s, e.code = c := by
  simp [hasCode]

theorem hasCode_false_iff {s : Store} {c : String} :
    hasCode s c = false ↔ ∀ e ∈ s, e.code ≠ c := by
  simp [hasCode]

theorem countP_eq_zero_iff_not_hasCode {s : Store} {c : String} :
    s.countP (fun e => e.code == c) = 0 ↔ hasCode s c = false := by
  simp [hasCode, List.countP_eq_zero]

theorem find?_eq_none_of_not_hasCode {s : Store} {c : String} (h : hasCode s c = false) :
    s.find? (fun e => e.code == c) = none := by
  rw [List.find?_eq_none]
  intro e he
  simp only [beq_iff_eq]
  exact hasCode_false_iff.mp h e he

theorem create_fresh {s : Store} {c u : String} (h : hasCode s c = false) :
    create_short_url s c u = (.created c u, s ++ [⟨c, u⟩]) := by
  simp [create_short_url, h]

theorem create_of_hasCode {s : Store} {c u : String} (h : hasCode s c = true) :
    create_short_url s c u = (.duplicateError, s) := by
  simp [create_short_url, h]

theorem create_created_not_hasCode {s : Store} {c u : String}
    (h : (create_short_url s c u).1 = .created c u) : hasCode s c = false := by
  by_contra hn
  rw [create_of_hasCode (by simpa using hn)] at h
  exact CreateResult.noConfusion h

theorem hasCode_append_singleton {s : Store} {c u : String} :
    hasCode (s ++ [⟨c, u⟩]) c = true := by
  simp [hasCode]

theorem resolve_create {s : Store} {c u : String} (h : hasCode s c = false) :
    resolve (s ++ [⟨c, u⟩]) c = .redirect u := by
  unfold resolve
  rw [List.find?_append, find?_eq_none_of_not_hasCode h]
  simp [List.find?]

theorem find?_map_update {c u : String} :
    ∀ s : Store, hasCode s c = true →
      (s.map (fun e => if e.code == c then ({ code := c, url := u } : Entry) else e)).find?
        (fun e => e.code == c) = some ⟨c, u⟩
  | [], h => by simp [hasCode] at h
  | a :: t, h => by
      by_cases hc : (a.code == c) = true
      · simp only [List.map_cons, if_pos hc]
        exact List.find?_cons_of_pos _ (by simp)
      · have ht : hasCode t c = true := by
          simp only [hasCode, List.any_cons, hc, Bool.false_or] at h
          exact h
        have hc' : (a.code == c) = false := by simpa using hc
        rw [List.map_cons, if_neg hc, List.find?_cons, hc']
        exact find?_map_update t ht

theorem resolve_update_store {s : Store} {c u : String} (h : hasCode s c = true) :
    resolve (s.map (fun e => if e.code == c then ({ code := c, url := u } : Entry) else e)) c
      = .redirect u := by
  unfold resolve
  rw [find?_map_update s h]

theorem map_update_id {c u : String} :
    ∀ s : Store, (∀ e ∈ s, e.code ≠ c) →
      s.map (fun e => if e.code == c then ({ code := c, url := u } : Entry) else e) = s
  | [], _ => rfl
  | a :: t, h => by
      simp only [List.map_cons]
      rw [if_neg (by simpa using h a (List.mem_cons_self a t)),
        map_update_id t (fun e he => h e (List.mem_cons_of_mem a he))]

theorem update_store_id_of_not_hasCode {s : Store} {c u : String} (h : hasCode s c = false) :
    s.map (fun e => if e.code == c then ({ code := c, url := u } : Entry) else e) = s :=
  map_update_id s (hasCode_false_iff.mp h)

theorem countP_pos_of_hasCode {s : Store} {c : String} (h : hasCode s c = true) :
    s.countP (fun e => e.code == c) ≠ 0 := by
  intro h0
  rw [countP_eq_zero_iff_not_hasCode] at h0
  rw [h0] at h
  exact Bool.noConfusion h

theorem duplicate_status_client :
    isClientError CreateResult.duplicateError.status ∧
    ¬ isServerError CreateResult.duplicateError.status := by
  constructor
  · show 400 ≤ 400 ∧ 400 < 500
    norm_num
  · show ¬ 500 ≤ 400
    norm_num

/-! ### C1 — duplicate create fails as a client error and changes nothing -/

/-- C1: after a successful create(C, U1), a second create(C, U2) fails with the
duplicate-code error, reported with status 400 — a client error and never a server
error — the store is unchanged by the failed create, and get(C) still returns U1. -/
theorem create_duplicate_rejected (s : Store) (c u1 u2 : String)
    (h : (create_short_url s c u1).1 = .created c u1) :
    (create_short_url (create_short_url s c u1).2 c u2).1 = .duplicateError ∧
    isClientError ((create_short_url (create_short_url s c u1).2 c u2).1).status ∧
    ¬ isServerError ((create_short_url (create_short_url s c u1).2 c u2).1).status ∧
    (create_short_url (create_short_url s c u1).2 c u2).2 = (create_short_url s c u1).2 ∧
    resolve (create_short_url (create_short_url s c u1).2 c u2).2 c = .redirect u1 := by
  have hf : hasCode s c = false := create_created_not_hasCode h
  rw [create_fresh hf]
  have h1 : hasCode (s ++ [⟨c, u1⟩]) c = true := hasCode_append_singleton
  rw [create_of_hasCode h1]
  exact ⟨rfl, duplicate_status_client.1, duplicate_status_client.2, rfl, resolve_create hf⟩

/-- Witness for C1 at a concrete store. -/
theorem create_duplicate_rejected_witness :
    (create_short_url ([] : Store) "gh" "https://github.com").1
        = .created "gh" "https://github.com" ∧
    (create_short_url (create_short_url ([] : Store) "gh" "https://github.com").2
        "gh" "https://gh.io").1 = .duplicateError ∧
    resolve (create_short_url (create_short_url ([] : Store) "gh" "https://github.com").2
        "gh" "https://gh.io").2 "gh" = .redirect "https://github.com" := by
  refine ⟨by decide, ?_, ?_⟩
  · exact (create_duplicate_rejected [] "gh" "https://github.com" "https://gh.io"
      (by decide)).1
  · exact (create_duplicate_rejected [] "gh" "https://github.com" "https://gh.io"
      (by decide)).2.2.2.2

/-! ### C2 — update of an existing code takes effect -/

/-- C2: for an existing code C, update(C, U2) succeeds and a subsequent resolve of C
returns U2 (never the old URL): every row with code C now carries U2. -/
theorem update_then_resolve (s : Store) (c u2 : String) (h : hasCode s c = true) :
    (update_url s c (some u2)).1 = .updated ∧
    resolve (update_url s c (some u2)).2 c = .redirect u2 := by
  have hc := countP_pos_of_hasCode h
  constructor
  · simp [update_url, hc]
  · have : (update_url s c (some u2)).2
        = s.map (fun e => if e.code == c then ({ code := c, url := u2 } : Entry) else e) := by
      simp [update_url, hc]
    rw [this]
    exact resolve_update_store h

/-- Witness for C2 at a concrete store. -/
theorem update_then_resolve_witness :
    hasCode [⟨"a", "u1"⟩] "a" = true ∧
    (update_url [⟨"a", "u1"⟩] "a" (some "u2")).1 = .updated ∧
    resolve (update_url [⟨"a", "u1"⟩] "a" (some "u2")).2 "a" = .redirect "u2" :=
  ⟨by decide, (update_then_resolve [⟨"a", "u1"⟩] "a" "u2" (by decide)).1,
    (update_then_resolve [⟨"a", "u1"⟩] "a" "u2" (by decide)).2⟩

/-! ### C3 — update/delete on an absent code fail with not-found -/

theorem delete_store_eq (s : Store) (c : String) :
    (delete_url s c).2 = s.filter (fun e => !(e.code == c)) := by
  simp only [delete_url]
  split <;> rfl

theorem hasCode_delete_self (s : Store) (c : String) :
    hasCode (delete_url s c).2 c = false := by
  rw [delete_store_eq, hasCode_false_iff]
  intro e he
  have := (List.mem_filter.mp he).2
  simpa using this

theorem update_notFound_of_absent {s : Store} {c u : String} (h : hasCode s c = false) :
    (update_url s c (some u)).1 = .notFound := by
  have h0 : s.countP (fun e => e.code == c) = 0 := countP_eq_zero_iff_not_hasCode.mpr h
  simp [update_url, h0]

theorem delete_notFound_of_absent {s : Store} {c : String} (h : hasCode s c = false) :
    (delete_url s c).1 = .notFoundDelete := by
  have h0 : s.countP (fun e => e.code == c) = 0 := countP_eq_zero_iff_not_hasCode.mpr h
  simp [delete_url, h0]

/-- C3: update and delete on a code absent from the store both fail with the 404
not-found error; moreover after any delete of a code — in particular a successful
one — that code is absent, so a subsequent update or second delete of it fails with
not-found, never succeeds. -/
theorem not_found_symmetry (s : Store) (c u : String) (h : hasCode s c = false) :
    (update_url s c (some u)).1 = .notFound ∧
    (delete_url s c).1 = .notFoundDelete ∧
    (∀ s2 c2 u2, (update_url (delete_url s2 c2).2 c2 (some u2)).1 = .notFound) ∧
    (∀ s2 c2, (delete_url (delete_url s2 c2).2 c2).1 = .notFoundDelete) :=
  ⟨update_notFound_of_absent h, delete_notFound_of_absent h,
    fun s2 c2 _ => update_notFound_of_absent (hasCode_delete_self s2 c2),
    fun s2 c2 => delete_notFound_of_absent (hasCode_delete_self s2 c2)⟩

/-- Witness for C3 at concrete stores: a never-created code, and a created code
deleted and then updated/deleted again. -/
theorem not_found_symmetry_witness :
    hasCode ([] : Store) "x" = false ∧
    (update_url ([] : Store) "x" (some "u")).1 = .notFound ∧
    (delete_url ([] : Store) "x").1 = .notFoundDelete ∧
    (delete_url [⟨"y", "v"⟩] "y").1 = .deleted ∧
    (update_url (delete_url [⟨"y", "v"⟩] "y").2 "y" (some "w")).1 = .notFound ∧
    (delete_url (delete_url [⟨"y", "v"⟩] "y").2 "y").1 = .notFoundDelete := by
  have h := not_found_symmetry ([] : Store) "x" "u" (by decide)
  exact ⟨by decide, h.1, h.2.1, by decide, h.2.2.1 [⟨"y", "v"⟩] "y" "w",
    h.2.2.2 [⟨"y", "v"⟩] "y"⟩

/-! ### C4 — update of an absent code is not an upsert -/

/-- C4: for a code absent from the store, update leaves the store completely
unchanged, whatever the payload — no entry is created as a side effect. -/
theorem update_no_upsert (s : Store) (c : String) (p : Option String)
    (h : hasCode s c = false) : (update_url s c p).2 = s := by
  cases p with
  | none => rfl
  | some u =>
      have h0 : s.countP (fun e => e.code == c) = 0 := countP_eq_zero_iff_not_hasCode.mpr h
      simp only [update_url, h0, if_pos]
      exact update_store_id_of_not_hasCode h

/-- Witness for C4 at a concrete store. -/
theorem update_no_upsert_witness :
    hasCode [⟨"a", "u"⟩] "b" = false ∧
    (update_url [⟨"a", "u"⟩] "b" (some "w")).2 = [⟨"a", "u"⟩] :=
  ⟨by decide, update_no_upsert [⟨"a", "u"⟩] "b" (some "w") (by decide)⟩

/-! ### C5 — resolving an unknown code redirects to the management view -/

/-- C5: resolving an absent code yields a 302 redirect to `/manage`, which is
neither a client-error nor a server-error response. -/
theorem resolve_fallback (s : Store) (c : String) (h : hasCode s c = false) :
    resolve s c = .redirect "/manage" ∧
    (resolve s c).status = 302 ∧
    ¬ isClientError (resolve s c).status ∧
    ¬ isServerError (resolve s c).status := by
  have hr : resolve s c = .redirect "/manage" := by
    unfold resolve
    rw [find?_eq_none_of_not_hasCode h]
  refine ⟨hr, by rw [hr]; rfl, ?_, ?_⟩ <;> rw [hr]
  · show ¬ (400 ≤ 302 ∧ 302 < 500)
    norm_num
  · show ¬ 500 ≤ 302
    norm_num

/-- Witness for C5 at a concrete store. -/
theorem resolve_fallback_witness :
    hasCode [⟨"a", "u"⟩] "zzz" = false ∧
    resolve [⟨"a", "u"⟩] "zzz" = .redirect "/manage" ∧
    (resolve [⟨"a", "u"⟩] "zzz").status = 302 :=
  ⟨by decide, (resolve_fallback [⟨"a", "u"⟩] "zzz" (by decide)).1,
    (resolve_fallback [⟨"a", "u"⟩] "zzz" (by decide)).2.1⟩

/-! ### C6 — the management listing is sorted by code -/

theorem code_le_trans : ∀ a b c : Entry,
    (decide (a.code ≤ b.code)) = true → (decide (b.code ≤ c.code)) = true →
    (decide (a.code ≤ c.code)) = true := by
  intro a b c hab hbc
  simp only [decide_eq_true_eq] at *
  exact le_trans hab hbc

theorem code_le_total : ∀ a b : Entry,
    ((decide (a.code ≤ b.code)) || (decide (b.code ≤ a.code))) = true := by
  intro a b
  simpa using le_total a.code b.code

theorem listEntries_perm (s : Store) : (listEntries s).Perm s :=
  List.mergeSort_perm s _

theorem listEntries_sorted (s : Store) :
    List.Sorted (fun a b : Entry => a.code ≤ b.code) (listEntries s) := by
  have h := List.sorted_mergeSort code_le_trans code_le_total s
  exact h.imp (fun hab => of_decide_eq_true hab)

theorem listEntries_sorted_lt {s : Store} (hnd : uniqueCodes s) :
    List.Sorted (fun a b : Entry => a.code < b.code) (listEntries s) := by
  have hle := listEntries_sorted s
  have hnd2 : ((listEntries s).map Entry.code).Nodup :=
    (((listEntries_perm s).map Entry.code).nodup_iff).mpr hnd
  have hne : (listEntries s).Pairwise (fun a b : Entry => a.code ≠ b.code) :=
    List.pairwise_map.mp hnd2
  exact (hle.and hne).imp (fun h => lt_of_le_of_ne h.1 h.2)

instance : IsAntisymm Entry (fun a b => a.code < b.code) :=
  ⟨fun _ _ h1 h2 => absurd (lt_trans h1 h2) (lt_irrefl _)⟩

/-- C6: the listing of `manage_page` is a permutation of the stored entries, sorted
ascending by code; it is insertion-order independent (stores holding the same
entries — codes being unique — list identically), and the empty store lists as the
empty sequence. -/
theorem list_ordering (s t : Store) (hper : s.Perm t) (hnd : uniqueCodes s) :
    (listEntries s).Perm s ∧
    List.Sorted (fun a b : Entry => a.code ≤ b.code) (listEntries s) ∧
    listEntries s = listEntries t ∧
    listEntries ([] : Store) = [] := by
  refine ⟨listEntries_perm s, listEntries_sorted s, ?_, by simp [listEntries]⟩
  have hndt : uniqueCodes t := (hper.map Entry.code).nodup_iff.mp hnd
  exact List.eq_of_perm_of_sorted
    ((listEntries_perm s).trans (hper.trans (listEntries_perm t).symm))
    (listEntries_sorted_lt hnd) (listEntries_sorted_lt hndt)

/-- Witness for C6 at two concrete stores holding the same entries in different
insertion orders. -/
theorem list_ordering_witness :
    listEntries ([⟨"b", "ub"⟩, ⟨"a", "ua"⟩] : Store)
      = listEntries ([⟨"a", "ua"⟩, ⟨"b", "ub"⟩] : Store) ∧
    listEntries ([⟨"b", "ub"⟩, ⟨"a", "ua"⟩] : Store) = [⟨"a", "ua"⟩, ⟨"b", "ub"⟩] ∧
    listEntries ([] : Store) = [] := by
  have hnd : uniqueCodes ([⟨"b", "ub"⟩, ⟨"a", "ua"⟩] : Store) := by
    show (List.map Entry.code [⟨"b", "ub"⟩, ⟨"a", "ua"⟩]).Nodup
    decide
  have h := list_ordering [⟨"b", "ub"⟩, ⟨"a", "ua"⟩] [⟨"a", "ua"⟩, ⟨"b", "ub"⟩]
    (by decide) hnd
  have hab : (⟨"a", "ua"⟩ : Entry).code < (⟨"b", "ub"⟩ : Entry).code := by
    show ("a" : String) < "b"
    rw [String.lt_iff_toList_lt]
    decide
  have hsorted : List.Sorted (fun a b : Entry => a.code < b.code)
      [⟨"a", "ua"⟩, ⟨"b", "ub"⟩] := by
    refine List.pairwise_cons.mpr ⟨?_, List.pairwise_singleton _ _⟩
    intro e he
    rw [List.mem_singleton] at he
    subst he
    exact hab
  refine ⟨h.2.2.1, ?_, h.2.2.2⟩
  exact List.eq_of_perm_of_sorted (h.1.trans (by decide))
    (listEntries_sorted_lt hnd) hsorted

/-! ### C7 — a missing url field errors before the store is touched -/

/-- C7: an update request whose body lacks the `url` field fails with the
missing-field error for every store and code; its status (500) is distinguishable
from not-found's (404); the store is returned untouched, the result does not
depend on the store at all, and in particular it is never the not-found error —
even when the code does not exist. -/
theorem missing_field_before_store (s : Store) (c : String) :
    (update_url s c none).1 = .missingField ∧
    (update_url s c none).2 = s ∧
    UpdateResult.missingField.status ≠ UpdateResult.notFound.status ∧
    (update_url s c none).1 ≠ .notFound :=
  ⟨rfl, rfl, by decide, fun h => UpdateResult.noConfusion h⟩

/-! ### C8 — code uniqueness is preserved by every operation -/

theorem uniqueCodes_create (s : Store) (c u : String) (h : uniqueCodes s) :
    uniqueCodes (create_short_url s c u).2 := by
  by_cases hc : hasCode s c
  · rw [create_of_hasCode hc]
    exact h
  · rw [create_fresh (by simpa using hc)]
    unfold uniqueCodes at *
    rw [List.map_append, List.nodup_append]
    refine ⟨h, by simp, ?_⟩
    intro a ha hb
    simp only [List.map_cons, List.map_nil, List.mem_singleton] at hb
    subst hb
    rcases List.mem_map.mp ha with ⟨e, he, hec⟩
    exact hc (hasCode_iff.mpr ⟨e, he, hec⟩)

theorem map_code_update (s : Store) (c u : String) :
    (s.map (fun e => if e.code == c then ({ code := c, url := u } : Entry) else e)).map
      Entry.code = s.map Entry.code := by
  rw [List.map_map]
  apply List.map_congr_left
  intro e _
  by_cases hc : (e.code == c) = true
  · simp only [Function.comp_apply, if_pos hc]
    exact (beq_iff_eq.mp hc).symm
  · simp only [Function.comp_apply, if_neg hc]

theorem uniqueCodes_update (s : Store) (c : String) (p : Option String)
    (h : uniqueCodes s) : uniqueCodes (update_url s c p).2 := by
  cases p with
  | none => exact h
  | some u =>
      have h2 : (update_url s c (some u)).2
          = s.map (fun e => if e.code == c then ({ code := c, url := u } : Entry) else e) := by
        simp only [update_url]
        split <;> rfl
      rw [uniqueCodes, h2, map_code_update]
      exact h

theorem uniqueCodes_delete (s : Store) (c : String) (h : uniqueCodes s) :
    uniqueCodes (delete_url s c).2 := by
  rw [uniqueCodes, delete_store_eq]
  exact List.Nodup.sublist ((List.filter_sublist s).map Entry.code) h

/-- C8: every state reachable from the empty store by create/update/delete
operations has pairwise-distinct codes, and each single operation preserves
this invariant from any state satisfying it. -/
theorem uniqueCodes_invariant (ops : List Op) :
    uniqueCodes (runOps ops) ∧
    ∀ s o, uniqueCodes s → uniqueCodes (applyOp s o) := by
  have hstep : ∀ s o, uniqueCodes s → uniqueCodes (applyOp s o) := by
    intro s o hs
    cases o with
    | create c u => exact uniqueCodes_create s c u hs
    | update c p => exact uniqueCodes_update s c p hs
    | delete c => exact uniqueCodes_delete s c hs
  refine ⟨?_, hstep⟩
  suffices hall : ∀ s, uniqueCodes s → uniqueCodes (ops.foldl applyOp s) from
    hall [] List.nodup_nil
  induction ops with
  | nil => exact fun _ hs => hs
  | cons o t ih => exact fun s hs => ih (applyOp s o) (hstep s o hs)

/-- Witness for C8 on a concrete operation sequence and a concrete step. -/
theorem uniqueCodes_invariant_witness :
    uniqueCodes (runOps [Op.create "a" "u", Op.create "a" "v", Op.delete "a"]) ∧
    uniqueCodes (applyOp [⟨"a", "u"⟩] (Op.create "b" "w")) := by
  constructor
  · exact (uniqueCodes_invariant [Op.create "a" "u", Op.create "a" "v", Op.delete "a"]).1
  · refine (uniqueCodes_invariant []).2 [⟨"a", "u"⟩] (Op.create "b" "w") ?_
    show (List.map Entry.code [⟨"a", "u"⟩]).Nodup
    decide

/-! ### C9 — two concurrent creates with the same code -/

/-- C9: each create maps to a single SQLite `INSERT`, executed atomically, so two
concurrent create(C, U1) and create(C, U2) calls serialize into one of the two
orders.  From any state where C is absent, in either order exactly the first call
succeeds and the second fails with the duplicate-code error, and C subsequently
resolves to the winner's URL — it is never overwritten and the calls never both
succeed or both fail. -/
theorem concurrent_create_race (s : Store) (c u1 u2 : String)
    (h : hasCode s c = false) :
    ((create_short_url s c u1).1 = .created c u1 ∧
      (create_short_url (create_short_url s c u1).2 c u2).1 = .duplicateError ∧
      resolve (create_short_url (create_short_url s c u1).2 c u2).2 c = .redirect u1) ∧
    ((create_short_url s c u2).1 = .created c u2 ∧
      (create_short_url (create_short_url s c u2).2 c u1).1 = .duplicateError ∧
      resolve (create_short_url (create_short_url s c u2).2 c u1).2 c = .redirect u2) := by
  constructor
  · rw [create_fresh h, create_of_hasCode hasCode_append_singleton]
    exact ⟨rfl, rfl, resolve_create h⟩
  · rw [create_fresh h, create_of_hasCode hasCode_append_singleton]
    exact ⟨rfl, rfl, resolve_create h⟩

/-- Witness for C9 at a concrete store, one of the two serialization orders. -/
theorem concurrent_create_race_witness :
    hasCode ([] : Store) "c" = false ∧
    (create_short_url ([] : Store) "c" "u1").1 = .created "c" "u1" ∧
    (create_short_url (create_short_url ([] : Store) "c" "u1").2 "c" "u2").1
      = .duplicateError ∧
    resolve (create_short_url (create_short_url ([] : Store) "c" "u1").2 "c" "u2").2 "c"
      = .redirect "u1" := by
  have h := (concurrent_create_race ([] : Store) "c" "u1" "u2" (by decide)).1
  exact ⟨by decide, h.1, h.2.1, h.2.2⟩

/-! ### C10 — the code "manage" is shadowed by the management route -/

/-- C10: an entry with code `"manage"` behaves like any other for create, list,
update and delete; but a GET request for the path segment `"manage"` is dispatched
to the management-page route, which is registered before the catch-all resolve
route, so the resolve endpoint never answers for it and no redirect to the URL
stored under `"manage"` is ever produced. -/
theorem manage_code_shadowed (s : Store) (u u2 : String)
    (h : hasCode s "manage" = false) :
    (create_short_url s "manage" u).1 = .created "manage" u ∧
    (⟨"manage", u⟩ : Entry) ∈ listEntries (create_short_url s "manage" u).2 ∧
    (update_url (create_short_url s "manage" u).2 "manage" (some u2)).1 = .updated ∧
    (delete_url (create_short_url s "manage" u).2 "manage").1 = .deleted ∧
    (∀ t : Store, dispatchGet t "manage" = .managePage (listEntries t)) ∧
    (∀ t : Store, ∀ v, dispatchGet t "manage" ≠ .redirect v) := by
  have hdisp : ∀ t : Store, dispatchGet t "manage" = .managePage (listEntries t) := by
    intro t
    simp [dispatchGet]
  rw [create_fresh h]
  refine ⟨rfl, ?_, ?_, ?_, hdisp, ?_⟩
  · exact (listEntries_perm _).mem_iff.mpr (by simp)
  · have hc := countP_pos_of_hasCode
      (hasCode_append_singleton (s := s) (c := "manage") (u := u))
    simp [update_url, hc]
  · have hc := countP_pos_of_hasCode
      (hasCode_append_singleton (s := s) (c := "manage") (u := u))
    simp [delete_url, hc]
  · intro t v hv
    rw [hdisp t] at hv
    exact GetResponse.noConfusion hv

/-- Witness for C10 at a concrete store. -/
theorem manage_code_shadowed_witness :
    hasCode ([] : Store) "manage" = false ∧
    (create_short_url ([] : Store) "manage" "https://x.example").1
      = .created "manage" "https://x.example" ∧
    (update_url (create_short_url ([] : Store) "manage" "https://x.example").2
      "manage" (some "https://y.example")).1 = .updated ∧
    (delete_url (create_short_url ([] : Store) "manage" "https://x.example").2
      "manage").1 = .deleted ∧
    dispatchGet ([⟨"manage", "https://x.example"⟩] : Store) "manage"
      = .managePage (listEntries [⟨"manage", "https://x.example"⟩]) ∧
    dispatchGet ([⟨"manage", "https://x.example"⟩] : Store) "manage"
      ≠ .redirect "https://x.example" := by
  have h := manage_code_shadowed ([] : Store) "https://x.example" "https://y.example"
    (by decide)
  exact ⟨by decide, h.1, h.2.2.1, h.2.2.2.1, h.2.2.2.2.1 _,
    h.2.2.2.2.2 _ "https://x.example"⟩
